import Mathlib

set_option maxHeartbeats 1000000
set_option maxRecDepth 4096

/-!
Shallow embedding of the Astria execution gRPC service of the flame
repository (`grpc/execution/server.go`), together with proofs about the
behaviour of its procedures `ExecuteBlock`, `GetCommitmentState`,
`UpdateCommitmentState`, `GetBlock` and `BatchGetBlocks`.

The server code in `grpc/execution/server.go` is translated directly.
External collaborators that live elsewhere in the repository (the chain
store primitives of `core.BlockChain`, the miner's payload builder, the
transaction unbundler and the static request validators of the `shared`
and `execution` packages) are modelled from the specification, as marked
on each definition.
-/

namespace Flame

/-- gRPC status codes used by the execution service. -/
inductive GrpcCode where
  | invalidArgument
  | notFound
  | failedPrecondition
  | permissionDenied
  | internal
deriving DecidableEq, Repr

/-- Go `common.BytesToHash` / `Hash.SetBytes`: a hash is 32 bytes; longer
inputs are cropped from the left, shorter ones are left-padded with
zero bytes. -/
def bytesToHash (b : List Nat) : List Nat :=
  let b2 := if 32 < b.length then b.drop (b.length - 32) else b
  List.replicate (32 - b2.length) 0 ++ b2

/-- Go `int64(u)` for `u : uint64` (also `big.Int.Int64` on a value below
`2^64`): two's-complement reinterpretation of the low 64 bits. -/
def i64Cast (n : Nat) : Int :=
  if n % 2 ^ 64 < 2 ^ 63 then ((n % 2 ^ 64 : Nat) : Int)
  else ((n % 2 ^ 64 : Nat) : Int) - 2 ^ 64

/-- Go `uint64(i)` for `i : int64`. -/
def u64OfI64 (i : Int) : Nat := (i % (2 ^ 64 : Int)).toNat

/-- Go `uint32(u)` for `u : uint64` (`uint32(block.NumberU64())`). -/
def u32OfU64 (n : Nat) : Nat := n % 2 ^ 64 % 2 ^ 32

/-- Go `uint32(i)` for `i : int64` (`uint32(header.Number.Int64())`). -/
def u32OfI64 (i : Int) : Nat := (i % (2 ^ 32 : Int)).toNat

/-! ### bech32m validation

`shared.ValidateBech32mAddress` is repository code that is not among the
provided sources; it is modelled from the spec ("bech32m: a
human-readable address encoding with HRP + checksum", validity "under
`address_prefix`"), following the reference bech32m algorithm. -/

/-- The 32-character bech32 data alphabet. -/
def bech32Charset : List Char := "qpzry9x8gf2tvdw0s3jn54khce6mua7l".toList

/-- Index of a character in the bech32 alphabet. -/
def bech32CharValue (c : Char) : Option Nat := bech32Charset.findIdx? (· == c)

/-- Generator constants of the bech32 checksum BCH code. -/
def bech32Gen : List Nat := [0x3b6a57b2, 0x26508e6d, 0x1ea119fa, 0x3d4233dd, 0x2a1462b3]

/-- One step of the bech32 `polymod` checksum. -/
def bech32PolymodStep (chk v : Nat) : Nat :=
  let b := chk / 2 ^ 25
  let chk1 := (chk % 2 ^ 25) * 32 ^^^ v
  (List.zip (List.range 5) bech32Gen).foldl
    (fun acc p => if b / 2 ^ p.1 % 2 = 1 then acc ^^^ p.2 else acc) chk1

/-- The bech32 `polymod` checksum of a value sequence. -/
def bech32Polymod (values : List Nat) : Nat := values.foldl bech32PolymodStep 1

/-- Expansion of the human-readable part into checksum input values. -/
def bech32HrpExpand (hrp : List Char) : List Nat :=
  hrp.map (fun c => c.toNat / 32) ++ [0] ++ hrp.map (fun c => c.toNat % 32)

/-- Split a candidate bech32 string at its last separator character. -/
def bech32SplitLastSep (cs : List Char) : Option (List Char × List Char) :=
  match cs.reverse.findIdx? (· == '1') with
  | none => none
  | some i => some ((cs.reverse.drop (i + 1)).reverse, (cs.reverse.take i).reverse)

/-- Modelled from the spec: `shared.ValidateBech32mAddress(address,
intendedPrefix)` (repository code outside the provided sources) decodes
`address` as bech32m and checks that its human-readable part equals the
configured address prefix and that its bech32m checksum is correct. -/
def ValidateBech32mAddress (address : String) (hrp : String) : Bool :=
  match bech32SplitLastSep address.toList with
  | none => false
  | some (hrpPart, dataPart) =>
    if hrpPart.isEmpty then false
    else if String.mk hrpPart != hrp then false
    else if dataPart.length < 6 then false
    else
      match dataPart.mapM bech32CharValue with
      | none => false
      | some vals => bech32Polymod (bech32HrpExpand hrpPart ++ vals) == 0x2bc830a3

/-! ### Data model -/

/-- A 20-byte Ethereum address, modelled by its numeric value. -/
abbrev EthAddress := Nat

/-- Executable rollup transactions as produced by the unbundler.
A `seqTx` is a decoded signed user transaction (kept as its wire bytes);
a `depositTx` is the synthesised deposit transaction, which the spec
requires to be uniquely derived from `(height, prev_block_hash,
source_transaction_id, source_action_index)` plus the credited
destination and amount. -/
inductive Tx where
  | seqTx (bytes : List Nat)
  | depositTx (height : Nat) (prevBlockHash : List Nat) (sourceTransactionId : String)
      (sourceActionIndex : Nat) (destinationChainAddress : String) (amount : Nat)
deriving DecidableEq, Repr

/-- Wire `RollupData` input item of `ExecuteBlock` (sequencerblock v1 wire
form): either opaque signed-transaction bytes or a bridge deposit. -/
inductive RollupData where
  | sequencedData (bytes : List Nat)
  | deposit (bridgeAddress : String) (asset : String) (amount : Nat)
      (rollupId : List Nat) (destinationChainAddress : String)
      (sourceTransactionId : String) (sourceActionIndex : Nat)
deriving DecidableEq, Repr

/-- Chain configuration (`params.ChainConfig` Astria fields), read from
genesis and immutable at runtime. `astriaSequencerAddressHrp` is the
configured bech32m human-readable part (`AstriaSequencerAddressPrefix`).
The fee-collector and auctioneer maps are keyed by `uint32` heights. -/
structure ChainConfig where
  astriaRollupName : String
  astriaSequencerInitialHeight : Nat
  astriaCelestiaInitialHeight : Nat
  astriaCelestiaHeightVariance : Nat
  astriaSequencerAddressHrp : String
  astriaFeeCollectors : List (Nat × EthAddress)
  astriaAuctioneerAddresses : List (Nat × String)
  bridgeAddresses : List String
  bridgeAllowedAssets : List String
  isCancun : Nat → Nat → Bool

/-- A stored block (the parts of `types.Block` / `types.Header` the
service reads): number, hash, parent hash, timestamp, transactions. -/
structure Block where
  number : Nat
  hash : List Nat
  parentHash : List Nat
  time : Nat
  txs : List Tx
deriving DecidableEq, Repr

/-- Modelled from the spec: the blockchain store (`core.BlockChain`,
outside the provided sources): immutable block store, canonical
height-to-hash mapping, mutable `current`/`safe`/`final` pointers and
the persisted base Celestia height. -/
structure ChainStore where
  blocks : List Block
  canonical : List (Nat × List Nat)
  headHash : List Nat
  safeHash : List Nat
  finalHash : List Nat
  baseCelestiaHeight : Nat
deriving DecidableEq, Repr

/-- The process-wide service state: chain store handle, the TxPool's
astria-ordered list, the next-fee-recipient and auctioneer-address
cells, the two handshake flags, the engine's synced flag and the chain
configuration. -/
structure ServerState where
  chain : ChainStore
  pool : List Tx
  nextFeeRecipient : EthAddress
  auctioneerAddress : String
  genesisInfoCalled : Bool
  commitmentStateCalled : Bool
  synced : Bool
  config : ChainConfig

/-- Wire `Block` message returned by the service. -/
structure WireBlock where
  number : Nat
  hash : List Nat
  parentBlockHash : List Nat
  timestampSeconds : Int
deriving DecidableEq, Repr

/-- Wire `CommitmentState` message. -/
structure CommitmentState where
  soft : WireBlock
  firm : WireBlock
  baseCelestiaHeight : Nat
deriving DecidableEq, Repr

/-- Wire `ExecuteBlockRequest`: previous block hash bytes, timestamp
seconds (int64), transactions, optional sequencer block hash. -/
structure ExecuteBlockRequest where
  prevBlockHash : List Nat
  timestampSeconds : Int
  transactions : List RollupData
  sequencerBlockHash : Option (List Nat)
deriving DecidableEq, Repr

/-- Wire `BlockIdentifier`: by (uint32) number or by hash bytes. -/
inductive BlockIdentifier where
  | blockNumber (n : Nat)
  | blockHash (h : List Nat)
deriving DecidableEq, Repr

/-! ### Chain store primitives (modelled from the spec) -/

/-- Association-list lookup, modelling a Go map index. -/
def lookupAssoc {α : Type} (m : List (Nat × α)) (k : Nat) : Option α :=
  (m.find? (fun p => p.1 == k)).map (·.2)

/-- Modelled from the spec: `BlockChain.GetBlockByHash` /
`GetHeaderByHash` — lookup of a stored block by its hash. -/
def GetBlockByHash (blocks : List Block) (h : List Nat) : Option Block :=
  blocks.find? (fun b => b.hash == h)

/-- Modelled from the spec: `BlockChain.GetCanonicalHash` — the hash of
the canonical block at a height, the zero hash when the height is not
on the canonical chain. -/
def GetCanonicalHash (c : ChainStore) (n : Nat) : List Nat :=
  match lookupAssoc c.canonical n with
  | some h => h
  | none => List.replicate 32 0

/-- Modelled from the spec: `BlockChain.GetHeaderByNumber` — the
canonical block at a height. -/
def GetHeaderByNumber (c : ChainStore) (n : Nat) : Option Block :=
  match lookupAssoc c.canonical n with
  | none => none
  | some h => GetBlockByHash c.blocks h

/-- The canonical height-to-hash mapping of the chain ending in `b`,
built by walking parent links back to height 0; `none` when an ancestor
is missing or heights do not decrease by one (the fuel argument is the
expected chain length). -/
def canonicalChainAux (blocks : List Block) : Nat → Block → Option (List (Nat × List Nat))
  | 0, b => if b.number = 0 then some [(0, b.hash)] else none
  | fuel + 1, b =>
    if b.number = 0 then some [(0, b.hash)]
    else
      match GetBlockByHash blocks b.parentHash with
      | none => none
      | some p =>
        if p.number + 1 = b.number then
          (canonicalChainAux blocks fuel p).map (fun m => (b.number, b.hash) :: m)
        else none

/-- Modelled from the spec: `BlockChain.SetCanonical(b)` — reorganise so
that `b` is the new head: the canonical mapping becomes the chain from
genesis to `b`, and the head pointer moves to `b`; fails (`none`) when
no complete parent chain for `b` exists in the store. -/
def SetCanonical (c : ChainStore) (b : Block) : Option ChainStore :=
  (canonicalChainAux c.blocks b.number b).map
    (fun m => { c with headHash := b.hash, canonical := m })

/-- Modelled from the spec: `BlockChain.SetSafe(header)` — move the safe
(soft) pointer. -/
def SetSafe (c : ChainStore) (b : Block) : ChainStore :=
  { c with safeHash := b.hash }

/-- Modelled from the spec: `BlockChain.SetCelestiaFinalized(header,
height)` — atomically move the final pointer and persist the base
Celestia height. -/
def SetCelestiaFinalized (c : ChainStore) (b : Block) (base : Nat) : ChainStore :=
  { c with finalHash := b.hash, baseCelestiaHeight := base }

/-- Modelled from the spec: `BlockChain.InsertBlockWithoutSetHead` —
fork-capable insert that does not advance any pointer. Engine-level
insert failures concern EVM execution, which the spec places out of
scope, so the modelled insert always succeeds. -/
def InsertBlockWithoutSetHead (c : ChainStore) (b : Block) : ChainStore :=
  { c with blocks := b :: c.blocks }

/-! ### Payload building (modelled from the spec) -/

/-- Deterministic byte encoding of a transaction, used by the modelled
block digest. -/
def encodeTx : Tx → List Nat
  | .seqTx bs => 0 :: bs
  | .depositTx height ph srcTx srcIdx dest amount =>
    1 :: height :: srcIdx :: amount ::
      (ph ++ srcTx.toList.map Char.toNat ++ dest.toList.map Char.toNat)

/-- A mixing step for the modelled digest. -/
def mixNat (a b : Nat) : Nat := a * 1000003 + b + 7

/-- Fold a value list into a single digest value. -/
def digestNat (l : List Nat) : Nat := l.foldl mixNat 5381

/-- Little-endian 32-byte rendering of a digest value. -/
def natToBytes32 (n : Nat) : List Nat :=
  (List.range 32).map (fun i => n / 2 ^ (8 * i) % 256)

/-- Modelled from the spec: the block hash is a deterministic 32-byte
digest (Keccak-256 in the implementation, delegated to the state
machine) of the header contents; modelled as a deterministic digest of
parent hash, number, timestamp, fee recipient, beacon root and
transactions. -/
def mkBlockHash (parentHash : List Nat) (number time feeRecipient : Nat)
    (beaconRoot : Option (List Nat)) (txs : List Tx) : List Nat :=
  natToBytes32 (digestNat (parentHash ++ [number, time, feeRecipient] ++
    (match beaconRoot with | none => [2] | some r => 3 :: r) ++
    (txs.map encodeTx).flatten))

/-- The fields of `miner.BuildPayloadArgs` the model reads (`Random` is
always the zero hash, `OverrideTransactions` empty and
`IsOptimisticExecution` false at this call site). -/
structure BuildPayloadArgs where
  parent : List Nat
  timestamp : Nat
  feeRecipient : EthAddress
  beaconRoot : Option (List Nat)
deriving DecidableEq, Repr

/-- Modelled from the spec: `Miner.BuildPayload` followed by
`engine.ExecutableDataToBlock` — deterministically build a block on the
given parent from the pool's astria-ordered transactions; fails when
the parent is not in the store. EVM-level dropping of invalid
transactions is out of scope, so the ordered list is taken as the block
body. -/
def BuildPayload (c : ChainStore) (args : BuildPayloadArgs) (ordered : List Tx) : Option Block :=
  match GetBlockByHash c.blocks args.parent with
  | none => none
  | some p =>
    some { number := p.number + 1
           parentHash := p.hash
           time := args.timestamp
           txs := ordered
           hash := mkBlockHash p.hash (p.number + 1) args.timestamp
             args.feeRecipient args.beaconRoot ordered }

/-! ### Wire conversion and validators -/

/-- The source `ethHeaderToExecutionBlock` (server.go): convert a header to the
wire `Block`; the number field is `uint32(header.Number.Int64())`. The
source can only fail on a nil header, which has no counterpart for a
header value, so the model is total. -/
def ethHeaderToExecutionBlock (header : Block) : WireBlock :=
  { number := u32OfI64 (i64Cast header.number)
    hash := header.hash
    parentBlockHash := header.parentHash
    timestampSeconds := i64Cast header.time }

/-- Modelled from the spec: `validateStaticExecuteBlockRequest`
(package `execution`, not among the provided sources). The spec's
static validation requires `prev_block_hash` to be 32 bytes and
`timestamp.seconds > 0`; its sequencer-block-hash clause depends on the
chain's Cancun predicate at the next height, which a validator of the
request alone cannot evaluate — that check is done inside
`ExecuteBlock` (server.go lines 175-181). -/
def validateStaticExecuteBlockRequest (req : ExecuteBlockRequest) : Bool :=
  req.prevBlockHash.length == 32 && decide (0 < req.timestampSeconds)

/-- Modelled from the spec: `validateStaticCommitmentState` (package
`execution`, not among the provided sources): both block hashes must be
32 bytes (`base_celestia_height` is always present on the wire type). -/
def validateStaticCommitmentState (cs : CommitmentState) : Bool :=
  cs.soft.hash.length == 32 && cs.firm.hash.length == 32

/-- Modelled from the spec:
`SharedServiceContainer.UnbundleRollupDataTransactions` (repository
code outside the provided sources): classify each item in order; keep
sequenced data as a decoded transaction; for a deposit, skip it unless
its bridge address is configured and its asset allowed, else synthesise
the deterministic deposit transaction derived from the height, previous
block hash and deposit fields. Output order equals input order. -/
def unbundleRollupDataTransactions (cfg : ChainConfig) (items : List RollupData)
    (height : Nat) (prevBlockHash : List Nat) : List Tx :=
  items.filterMap fun item =>
    match item with
    | .sequencedData bs => some (.seqTx bs)
    | .deposit bridgeAddress asset amount _rollupId dest srcTx srcIdx =>
      if bridgeAddress ∈ cfg.bridgeAddresses ∧ asset ∈ cfg.bridgeAllowedAssets then
        some (.depositTx height prevBlockHash srcTx srcIdx dest amount)
      else none

/-! ### The service procedures (from `grpc/execution/server.go`) -/

/-- Result of `ExecuteBlock`: a wire block with the post-call state, an
error status with the post-call state, or a process abort (a Go panic,
e.g. a nil-header dereference). -/
inductive ExecResult where
  | ok (res : WireBlock) (st : ServerState)
  | err (code : GrpcCode) (st : ServerState)
  | fatal

/-- Result of `UpdateCommitmentState`. -/
inductive UpdResult where
  | ok (cs : CommitmentState) (st : ServerState)
  | err (code : GrpcCode) (st : ServerState)
  | fatal

/-- Procedure `GetGenesisInfo` (server.go 73-90): latches the genesis-info
handshake flag. The returned message (SHA-256 rollup id and the two
config heights) is derived purely from immutable configuration and is
not referenced by any claim, so only the state effect is modelled. -/
def GetGenesisInfoStep (st : ServerState) : ServerState :=
  { st with genesisInfoCalled := true }

/-- Procedure `GetCommitmentState` (server.go 251-278): convert the safe and
final headers and the stored base Celestia height to a wire
`CommitmentState`; `Internal` when either header is missing; latches
the commitment-state handshake flag on success. -/
def GetCommitmentState (st : ServerState) : Except GrpcCode (CommitmentState × ServerState) :=
  match GetBlockByHash st.chain.blocks st.chain.safeHash with
  | none => .error .internal
  | some safeB =>
    match GetBlockByHash st.chain.blocks st.chain.finalHash with
    | none => .error .internal
    | some firmB =>
      .ok ({ soft := ethHeaderToExecutionBlock safeB
             firm := ethHeaderToExecutionBlock firmB
             baseCelestiaHeight := st.chain.baseCelestiaHeight },
        { st with commitmentStateCalled := true })

/-- The tail of `ExecuteBlock` (server.go 183-247) after the  static,
handshake, parent and Cancun checks: unbundle, stage to the pool, build
the payload, insert without head-set, clear the pool, build the
response, then the post-advance fee-collector and auctioneer-address
config updates. The source validates the configured auctioneer address
as bech32m but only logs a failure — the address is stored either way
(server.go 236-242). -/
def executeBlockBuild (st : ServerState) (req : ExecuteBlockRequest)
    (prevHeadHash : List Nat) (height blockTimestamp : Nat)
    (sequencerHashRef : Option (List Nat)) : ExecResult :=
  let txsToProcess := unbundleRollupDataTransactions st.config req.transactions height prevHeadHash
  let st1 := { st with pool := txsToProcess }
  match BuildPayload st1.chain
      { parent := prevHeadHash, timestamp := blockTimestamp,
        feeRecipient := st1.nextFeeRecipient, beaconRoot := sequencerHashRef }
      st1.pool with
  | none => .err .invalidArgument st1
  | some block =>
    let chain2 := InsertBlockWithoutSetHead st1.chain block
    let st2 := { st1 with chain := chain2, pool := [] }
    let res : WireBlock :=
      { number := u32OfU64 block.number
        hash := block.hash
        parentBlockHash := block.parentHash
        timestampSeconds := i64Cast block.time }
    let st3 :=
      match lookupAssoc st2.config.astriaFeeCollectors ((res.number + 1) % 2 ^ 32) with
      | some next => { st2 with nextFeeRecipient := next }
      | none => st2
    let st4 :=
      match lookupAssoc st3.config.astriaAuctioneerAddresses ((res.number + 1) % 2 ^ 32) with
      | some address => { st3 with auctioneerAddress := address }
      | none => st3
    .ok res st4

/-- Procedure `ExecuteBlock` (server.go 146-248): static validation, handshake
check, parent check against the safe (soft) pointer, Cancun
sequencer-hash check, then the build pipeline. A nil current or safe
header would be a nil dereference in Go, modelled as `fatal`. -/
def ExecuteBlock (st : ServerState) (req : ExecuteBlockRequest) : ExecResult :=
  if !validateStaticExecuteBlockRequest req then .err .invalidArgument st
  else if !(st.genesisInfoCalled && st.commitmentStateCalled) then .err .permissionDenied st
  else
    let prevHeadHash := bytesToHash req.prevBlockHash
    match GetBlockByHash st.chain.blocks st.chain.safeHash with
    | none => .fatal
    | some safeB =>
      if prevHeadHash ≠ safeB.hash then .err .failedPrecondition st
      else
        match GetBlockByHash st.chain.blocks st.chain.headHash with
        | none => .fatal
        | some headB =>
          let height := (headB.number + 1) % 2 ^ 64
          let blockTimestamp := u64OfI64 req.timestampSeconds
          if st.config.isCancun height blockTimestamp then
            match req.sequencerBlockHash with
            | none => .err .invalidArgument st
            | some sbh =>
              executeBlockBuild st req prevHeadHash height blockTimestamp
                (some (bytesToHash sbh))
          else
            executeBlockBuild st req prevHeadHash height blockTimestamp none

/-- Procedure `UpdateCommitmentState` (server.go 282-360): static validation,
handshake check, base-Celestia-height monotonicity check, soft/firm
lookups, canonical-chain swap to the soft block, firm-ancestry check
with rollback to the pre-call head on failure (a failing rollback is a
Go panic, modelled as `fatal`), then safe/final pointer updates and the
echoed request as response. -/
def UpdateCommitmentState (st : ServerState) (cs : CommitmentState) : UpdResult :=
  if !validateStaticCommitmentState cs then .err .invalidArgument st
  else if !(st.genesisInfoCalled && st.commitmentStateCalled) then .err .permissionDenied st
  else if cs.baseCelestiaHeight < st.chain.baseCelestiaHeight then .err .invalidArgument st
  else
    let softEthHash := bytesToHash cs.soft.hash
    let firmEthHash := bytesToHash cs.firm.hash
    match GetBlockByHash st.chain.blocks softEthHash with
    | none => .err .invalidArgument st
    | some softBlock =>
      match GetBlockByHash st.chain.blocks firmEthHash with
      | none => .err .invalidArgument st
      | some firmBlock =>
        let currentHead := st.chain.headHash
        match (if currentHead ≠ softEthHash then SetCanonical st.chain softBlock
               else some st.chain) with
        | none => .err .internal st
        | some chain1 =>
          if GetCanonicalHash chain1 firmBlock.number ≠ firmEthHash then
            match GetBlockByHash chain1.blocks currentHead with
            | none => .fatal
            | some rollbackBlock =>
              match SetCanonical chain1 rollbackBlock with
              | none => .fatal
              | some chain2 => .err .invalidArgument { st with chain := chain2 }
          else
            let st1 := { st with chain := chain1, synced := true }
            let chain3 :=
              if st1.chain.safeHash ≠ softEthHash then SetSafe st1.chain softBlock
              else st1.chain
            let chain4 :=
              if chain3.finalHash ≠ firmEthHash then
                SetCelestiaFinalized chain3 firmBlock cs.baseCelestiaHeight
              else chain3
            .ok cs { st1 with chain := chain4 }

/-- Helper `getBlockFromIdentifier` (server.go 362-386): dispatch on the
identifier tag; `NotFound` when the header is absent. -/
def getBlockFromIdentifier (st : ServerState) (id : BlockIdentifier) :
    Except GrpcCode WireBlock :=
  match id with
  | .blockNumber n =>
    match GetHeaderByNumber st.chain n with
    | none => .error .notFound
    | some hdr => .ok (ethHeaderToExecutionBlock hdr)
  | .blockHash h =>
    match GetBlockByHash st.chain.blocks (bytesToHash h) with
    | none => .error .notFound
    | some hdr => .ok (ethHeaderToExecutionBlock hdr)

/-- Procedure `GetBlock` (server.go 93-110): `InvalidArgument` on an empty
identifier, else `getBlockFromIdentifier`. -/
def GetBlock (st : ServerState) (req : Option BlockIdentifier) : Except GrpcCode WireBlock :=
  match req with
  | none => .error .invalidArgument
  | some id => getBlockFromIdentifier st id

/-- Procedure `BatchGetBlocks` (server.go 114-142): `InvalidArgument` on an empty
list, else all blocks in request order, the first failure aborting the
whole batch. -/
def BatchGetBlocks (st : ServerState) (ids : List BlockIdentifier) :
    Except GrpcCode (List WireBlock) :=
  if ids.isEmpty then .error .invalidArgument
  else ids.mapM (getBlockFromIdentifier st)

/-! ### Result projections -/

/-- The wire block of a successful `ExecuteBlock` result. -/
def ExecResult.resBlock : ExecResult → Option WireBlock
  | .ok res _ => some res
  | _ => none

/-- The post-call state of a successful `ExecuteBlock` result. -/
def ExecResult.resState : ExecResult → Option ServerState
  | .ok _ st => some st
  | _ => none

/-- The status code of a failed `ExecuteBlock` result. -/
def ExecResult.errCode : ExecResult → Option GrpcCode
  | .err c _ => some c
  | _ => none

/-- Whether an `ExecuteBlock` result is a success. -/
def ExecResult.isOk : ExecResult → Bool
  | .ok _ _ => true
  | _ => false

/-- Whether an `UpdateCommitmentState` result is a success. -/
def UpdResult.isOk : UpdResult → Bool
  | .ok _ _ => true
  | _ => false

/-- Whether an `Except` result is a success. -/
def exceptIsOk {ε α : Type} : Except ε α → Bool
  | .ok _ => true
  | .error _ => false

/-- The echoed commitment state of a successful `UpdateCommitmentState`. -/
def UpdResult.resCs : UpdResult → Option CommitmentState
  | .ok cs _ => some cs
  | _ => none

/-- The status code of a failed `UpdateCommitmentState` result. -/
def UpdResult.errCode : UpdResult → Option GrpcCode
  | .err c _ => some c
  | _ => none

/-! ### Helper lemmas -/

theorem GetBlockByHash_hash_eq {blocks : List Block} {h : List Nat} {b : Block}
    (hfind : GetBlockByHash blocks h = some b) : b.hash = h := by
  have := List.find?_some hfind
  simpa using this

theorem SetCanonical_some {c : ChainStore} {b : Block} {c2 : ChainStore}
    (h : SetCanonical c b = some c2) :
    c2.headHash = b.hash ∧ c2.blocks = c.blocks ∧ c2.safeHash = c.safeHash ∧
      c2.finalHash = c.finalHash ∧ c2.baseCelestiaHeight = c.baseCelestiaHeight := by
  unfold SetCanonical at h
  rw [Option.map_eq_some'] at h
  obtain ⟨m, _, rfl⟩ := h
  exact ⟨rfl, rfl, rfl, rfl, rfl⟩

theorem BuildPayload_some {c : ChainStore} {args : BuildPayloadArgs} {ordered : List Tx}
    {block : Block} (h : BuildPayload c args ordered = some block) :
    ∃ p, GetBlockByHash c.blocks args.parent = some p ∧
      block.number = p.number + 1 ∧ block.parentHash = p.hash ∧
      block.time = args.timestamp ∧ block.txs = ordered := by
  unfold BuildPayload at h
  split at h
  · exact absurd h (by simp)
  · next p hp =>
    refine ⟨p, hp, ?_⟩
    cases h
    exact ⟨rfl, rfl, rfl, rfl⟩

/-- Success inversion for the build tail of `ExecuteBlock`. -/
theorem executeBlockBuild_ok {st : ServerState} {req : ExecuteBlockRequest}
    {ph : List Nat} {height ts : Nat} {sref : Option (List Nat)}
    {res : WireBlock} {st' : ServerState}
    (hok : executeBlockBuild st req ph height ts sref = .ok res st') :
    ∃ parent block,
      GetBlockByHash st.chain.blocks ph = some parent ∧
      block.number = parent.number + 1 ∧
      block.time = ts ∧
      st'.chain.blocks = block :: st.chain.blocks ∧
      st'.chain.headHash = st.chain.headHash ∧
      st'.chain.safeHash = st.chain.safeHash ∧
      st'.chain.finalHash = st.chain.finalHash ∧
      st'.chain.canonical = st.chain.canonical ∧
      st'.chain.baseCelestiaHeight = st.chain.baseCelestiaHeight ∧
      st'.pool = [] ∧
      res.number = u32OfU64 block.number ∧
      res.hash = block.hash ∧
      res.parentBlockHash = block.parentHash ∧
      res.timestampSeconds = i64Cast block.time := by
  unfold executeBlockBuild at hok
  simp only at hok
  split at hok
  · exact absurd hok (by simp)
  · next block hbuild =>
    obtain ⟨p, hp, hnum, hph, htime, _⟩ := BuildPayload_some hbuild
    simp only [InsertBlockWithoutSetHead] at hok
    refine ⟨p, block, by simpa using hp, hnum, htime, ?_⟩
    split at hok <;> split at hok <;>
      (cases hok; exact ⟨rfl, rfl, rfl, rfl, rfl, rfl, rfl, rfl, rfl, rfl, rfl⟩)

/-- Success inversion for `ExecuteBlock` down to the build tail. -/
theorem ExecuteBlock_ok_inv {st : ServerState} {req : ExecuteBlockRequest}
    {res : WireBlock} {st' : ServerState}
    (hok : ExecuteBlock st req = .ok res st') :
    validateStaticExecuteBlockRequest req = true ∧
    st.genesisInfoCalled = true ∧ st.commitmentStateCalled = true ∧
    ∃ safeB, GetBlockByHash st.chain.blocks st.chain.safeHash = some safeB ∧
      bytesToHash req.prevBlockHash = safeB.hash ∧
      ∃ headB, GetBlockByHash st.chain.blocks st.chain.headHash = some headB ∧
        ∃ sref,
          executeBlockBuild st req (bytesToHash req.prevBlockHash)
            ((headB.number + 1) % 2 ^ 64) (u64OfI64 req.timestampSeconds) sref =
            .ok res st' := by
  unfold ExecuteBlock at hok
  simp only at hok
  split at hok
  · exact absurd hok (by simp)
  next hstat =>
  split at hok
  · exact absurd hok (by simp)
  next hhs =>
  split at hok
  · exact absurd hok (by simp)
  next safeB hsafe =>
  split at hok
  · exact absurd hok (by simp)
  next hpar =>
  split at hok
  · exact absurd hok (by simp)
  next headB hhead =>
  have h1 : validateStaticExecuteBlockRequest req = true := by simpa using hstat
  have h2 : (st.genesisInfoCalled && st.commitmentStateCalled) = true := by simpa using hhs
  rw [Bool.and_eq_true] at h2
  refine ⟨h1, h2.1, h2.2, safeB, hsafe, by simpa using hpar, headB, hhead, ?_⟩
  split at hok
  · split at hok
    · exact absurd hok (by simp)
    · exact ⟨_, hok⟩
  · exact ⟨none, hok⟩

/-! ### Concrete scenario data used by witnesses and counterexamples -/

/-- A concrete 32-byte hash. -/
def hashA : List Nat := List.replicate 32 1

/-- The zero hash. -/
def hashZ : List Nat := List.replicate 32 0

/-- A concrete genesis block. -/
def blkG : Block := { number := 0, hash := hashA, parentHash := hashZ, time := 1, txs := [] }

/-- A concrete chain configuration (Cancun never active). -/
def cfgW : ChainConfig :=
  { astriaRollupName := "test"
    astriaSequencerInitialHeight := 2
    astriaCelestiaInitialHeight := 2
    astriaCelestiaHeightVariance := 100
    astriaSequencerAddressHrp := "astria"
    astriaFeeCollectors := []
    astriaAuctioneerAddresses := []
    bridgeAddresses := ["bridge"]
    bridgeAllowedAssets := ["nria"]
    isCancun := fun _ _ => false }

/-- A concrete single-block chain store. -/
def chainW : ChainStore :=
  { blocks := [blkG], canonical := [(0, hashA)], headHash := hashA,
    safeHash := hashA, finalHash := hashA, baseCelestiaHeight := 2 }

/-- A concrete handshaken server state over `chainW`. -/
def stW : ServerState :=
  { chain := chainW, pool := [], nextFeeRecipient := 9, auctioneerAddress := "orig",
    genesisInfoCalled := true, commitmentStateCalled := true, synced := false,
    config := cfgW }

/-- A concrete well-formed `ExecuteBlockRequest` on top of `blkG`. -/
def reqW : ExecuteBlockRequest :=
  { prevBlockHash := hashA, timestampSeconds := 5, transactions := [],
    sequencerBlockHash := none }

/-- A well-formed request whose parent is not the soft head. -/
def reqStale : ExecuteBlockRequest :=
  { prevBlockHash := List.replicate 32 2, timestampSeconds := 5, transactions := [],
    sequencerBlockHash := none }

/-! ### Claim theorems -/

/-- C4: every `ExecuteBlock` call that returns OK appends exactly one new
block to the chain store at height `current_head.number + 1` (the head
pointer coincides with the safe pointer, the invariant the conductor
maintains), inserts it without advancing the head: the head, safe and
final pointers, the canonical mapping and `base_celestia_height` are
unchanged, and the TxPool astria-ordered list is empty afterwards. -/
theorem executeBlock_ok_appends_one_block {st : ServerState} {req : ExecuteBlockRequest}
    {res : WireBlock} {st' : ServerState}
    (hok : ExecuteBlock st req = .ok res st')
    (hhs : st.chain.headHash = st.chain.safeHash) :
    ∃ headB block,
      GetBlockByHash st.chain.blocks st.chain.headHash = some headB ∧
      block.number = headB.number + 1 ∧
      st'.chain.blocks = block :: st.chain.blocks ∧
      st'.chain.headHash = st.chain.headHash ∧
      st'.chain.safeHash = st.chain.safeHash ∧
      st'.chain.finalHash = st.chain.finalHash ∧
      st'.chain.canonical = st.chain.canonical ∧
      st'.chain.baseCelestiaHeight = st.chain.baseCelestiaHeight ∧
      st'.pool = [] := by
  obtain ⟨-, -, -, safeB, hsafe, hpar, headB, hhead, sref, hok2⟩ := ExecuteBlock_ok_inv hok
  obtain ⟨parent, block, hp, hnum, -, hblocks, hh, hs, hf, hc, hb, hpool, -, -, -, -⟩ :=
    executeBlockBuild_ok hok2
  have e1 : safeB.hash = st.chain.safeHash := GetBlockByHash_hash_eq hsafe
  rw [hpar, e1, hsafe] at hp
  obtain rfl : safeB = parent := Option.some.inj hp
  rw [hhs, hsafe] at hhead
  obtain rfl : safeB = headB := Option.some.inj hhead
  refine ⟨safeB, block, ?_, hnum, hblocks, hh, hs, hf, hc, hb, hpool⟩
  rw [hhs]; exact hsafe

/-- Witness for C4: a concrete successful `ExecuteBlock` call. -/
theorem executeBlock_ok_appends_one_block_witness :
    stW.chain.headHash = stW.chain.safeHash ∧
    ∃ res st', ExecuteBlock stW reqW = .ok res st' ∧
      ∃ headB block,
        GetBlockByHash stW.chain.blocks stW.chain.headHash = some headB ∧
        block.number = headB.number + 1 ∧
        st'.chain.blocks = block :: stW.chain.blocks ∧
        st'.chain.headHash = stW.chain.headHash ∧
        st'.chain.safeHash = stW.chain.safeHash ∧
        st'.chain.finalHash = stW.chain.finalHash ∧
        st'.chain.canonical = stW.chain.canonical ∧
        st'.chain.baseCelestiaHeight = stW.chain.baseCelestiaHeight ∧
        st'.pool = [] := by
  refine ⟨rfl, ?_⟩
  have hb : (ExecuteBlock stW reqW).isOk = true := by rfl
  cases h : ExecuteBlock stW reqW with
  | ok res st' => exact ⟨res, st', rfl, executeBlock_ok_appends_one_block h rfl⟩
  | err c s => rw [h] at hb; exact absurd hb (by simp [ExecResult.isOk])
  | fatal => rw [h] at hb; exact absurd hb (by simp [ExecResult.isOk])

/-- C7: a statically valid `ExecuteBlock` call made after the handshake
whose previous-block hash differs from the current safe (soft) pointer's
block hash fails with `FailedPrecondition`, returning the state
untouched: no block is built or inserted. -/
theorem executeBlock_stale_parent {st : ServerState} {req : ExecuteBlockRequest}
    {safeB : Block}
    (hstat : validateStaticExecuteBlockRequest req = true)
    (hg : st.genesisInfoCalled = true) (hc : st.commitmentStateCalled = true)
    (hsafe : GetBlockByHash st.chain.blocks st.chain.safeHash = some safeB)
    (hne : bytesToHash req.prevBlockHash ≠ safeB.hash) :
    ExecuteBlock st req = .err .failedPrecondition st := by
  simp [ExecuteBlock, hstat, hg, hc, hsafe, hne]

/-- Witness for C7: a concrete stale-parent call is rejected. -/
theorem executeBlock_stale_parent_witness :
    validateStaticExecuteBlockRequest reqStale = true ∧
    bytesToHash reqStale.prevBlockHash ≠ blkG.hash ∧
    ExecuteBlock stW reqStale = .err .failedPrecondition stW :=
  ⟨by decide, by decide,
    executeBlock_stale_parent (by decide) rfl rfl rfl (by decide)⟩

theorem u32OfI64_i64Cast (n : Nat) : u32OfI64 (i64Cast n) = n % 2 ^ 32 := by
  unfold u32OfI64 i64Cast
  have h1 : n % 2 ^ 64 % 2 ^ 32 = n % 2 ^ 32 :=
    Nat.mod_mod_of_dvd n (by norm_num)
  split <;> omega

theorem u32OfU64_mod (n : Nat) : u32OfU64 n = n % 2 ^ 32 := by
  unfold u32OfU64
  exact Nat.mod_mod_of_dvd n (by norm_num)

/-- A block at a height at or above `2^32`. -/
def blkBig : Block :=
  { number := 2 ^ 32 + 7, hash := List.replicate 32 6, parentHash := hashZ,
    time := 3, txs := [] }

/-- C10: every wire `Block` the service returns carries the chain height
reduced modulo `2^32`, with no error for heights at or above `2^32`:
the header conversion `ethHeaderToExecutionBlock` (used by `GetBlock`,
`BatchGetBlocks` and `GetCommitmentState`) is total and maps a header at
height `n` to the wire number `n % 2^32`, and a successful
`ExecuteBlock` reports the number of the one block it inserted reduced
modulo `2^32`. -/
theorem wire_block_number_is_mod_2_32 :
    (∀ header : Block,
      (ethHeaderToExecutionBlock header).number = header.number % 2 ^ 32) ∧
    (∀ (st : ServerState) (id : BlockIdentifier) (res : WireBlock),
      getBlockFromIdentifier st id = .ok res →
      ∃ b, res = ethHeaderToExecutionBlock b) ∧
    (∀ (st : ServerState) (p : CommitmentState × ServerState),
      GetCommitmentState st = .ok p →
      (∃ b, p.1.soft = ethHeaderToExecutionBlock b) ∧
      (∃ b, p.1.firm = ethHeaderToExecutionBlock b)) ∧
    (∀ (st : ServerState) (req : ExecuteBlockRequest) (res : WireBlock)
      (st' : ServerState), ExecuteBlock st req = .ok res st' →
      ∃ b, st'.chain.blocks = b :: st.chain.blocks ∧
        res.number = b.number % 2 ^ 32) := by
  refine ⟨?_, ?_, ?_, ?_⟩
  · intro header
    simp [ethHeaderToExecutionBlock, u32OfI64_i64Cast]
  · intro st id res h
    unfold getBlockFromIdentifier at h
    split at h <;> split at h <;> simp_all <;> exact ⟨_, h.symm⟩
  · intro st p h
    unfold GetCommitmentState at h
    split at h
    · exact absurd h (by simp)
    split at h
    · exact absurd h (by simp)
    cases h
    exact ⟨⟨_, rfl⟩, ⟨_, rfl⟩⟩
  · intro st req res st' hok
    obtain ⟨-, -, -, safeB, hsafe, hpar, headB, hhead, sref, hok2⟩ := ExecuteBlock_ok_inv hok
    obtain ⟨parent, block, -, -, -, hblocks, -, -, -, -, -, -, hnum, -, -, -⟩ :=
      executeBlockBuild_ok hok2
    exact ⟨block, hblocks, by rw [hnum, u32OfU64_mod]⟩

/-- Witness for C10 at concrete inputs, including a height above `2^32`. -/
theorem wire_block_number_is_mod_2_32_witness :
    (ethHeaderToExecutionBlock blkBig).number = blkBig.number % 2 ^ 32 ∧
    (∃ b, ethHeaderToExecutionBlock blkG = ethHeaderToExecutionBlock b) ∧
    (∃ p, GetCommitmentState stW = .ok p ∧
      (∃ b, p.1.soft = ethHeaderToExecutionBlock b) ∧
      (∃ b, p.1.firm = ethHeaderToExecutionBlock b)) ∧
    (∃ res st', ExecuteBlock stW reqW = .ok res st' ∧
      ∃ b, st'.chain.blocks = b :: stW.chain.blocks ∧
        res.number = b.number % 2 ^ 32) := by
  refine ⟨wire_block_number_is_mod_2_32.1 blkBig, ?_, ?_, ?_⟩
  · exact wire_block_number_is_mod_2_32.2.1 stW (.blockNumber 0)
      (ethHeaderToExecutionBlock blkG) rfl
  · have hb : exceptIsOk (GetCommitmentState stW) = true := by rfl
    cases h : GetCommitmentState stW with
    | ok p => exact ⟨p, rfl, wire_block_number_is_mod_2_32.2.2.1 stW p h⟩
    | error e => rw [h] at hb; exact absurd hb (by simp [exceptIsOk])
  · have hb : (ExecuteBlock stW reqW).isOk = true := by rfl
    cases h : ExecuteBlock stW reqW with
    | ok res st' =>
      exact ⟨res, st', rfl, wire_block_number_is_mod_2_32.2.2.2 stW reqW res st' h⟩
    | err c s => rw [h] at hb; exact absurd hb (by simp [ExecResult.isOk])
    | fatal => rw [h] at hb; exact absurd hb (by simp [ExecResult.isOk])

/-- Within the build tail, a configured auctioneer address at the next
height is stored into the auctioneer cell unconditionally. -/
theorem executeBlockBuild_auctioneer {st : ServerState} {req : ExecuteBlockRequest}
    {ph : List Nat} {height ts : Nat} {sref : Option (List Nat)}
    {res : WireBlock} {st' : ServerState} {address : String}
    (hok : executeBlockBuild st req ph height ts sref = .ok res st')
    (haddr : lookupAssoc st.config.astriaAuctioneerAddresses
      ((res.number + 1) % 2 ^ 32) = some address) :
    st'.auctioneerAddress = address := by
  unfold executeBlockBuild at hok
  simp only at hok
  split at hok
  · exact absurd hok (by simp)
  · split at hok <;> split at hok <;> (cases hok; simp_all)

/-- A configuration whose auctioneer address at height 2 is not valid
bech32m. -/
def cfgC1 : ChainConfig :=
  { cfgW with astriaAuctioneerAddresses := [(2, "bad")] }

/-- The handshaken state over `chainW` with the `cfgC1` configuration. -/
def stC1 : ServerState := { stW with config := cfgC1 }

/-- C1 counterexample: at a concrete state, the configured auctioneer
address `"bad"` for the next height fails bech32m validation under the
configured address prefix, yet a successful `ExecuteBlock` overwrites
the stored auctioneer_address cell with it — the source validates the
address but stores it regardless, only logging the failure (server.go
236-242), contradicting the claim that the cell is left unchanged. -/
theorem executeBlock_invalid_auctioneer_stored_cex :
    lookupAssoc cfgC1.astriaAuctioneerAddresses 2 = some "bad" ∧
    ValidateBech32mAddress "bad" cfgC1.astriaSequencerAddressHrp = false ∧
    stC1.auctioneerAddress = "orig" ∧
    ((ExecuteBlock stC1 reqW).resState.map (fun s => s.auctioneerAddress)) =
      some "bad" :=
  ⟨rfl, by decide, rfl, by rfl⟩

/-- C1 amended: after a successful `ExecuteBlock`, a configured
auctioneer address at the next height is stored into the
auctioneer_address cell whether or not it passes bech32m validation
(a validation failure is only logged); in particular every configured
address that passes validation is stored. -/
theorem executeBlock_auctioneer_always_stored {st : ServerState}
    {req : ExecuteBlockRequest} {res : WireBlock} {st' : ServerState}
    {address : String}
    (hok : ExecuteBlock st req = .ok res st')
    (haddr : lookupAssoc st.config.astriaAuctioneerAddresses
      ((res.number + 1) % 2 ^ 32) = some address) :
    st'.auctioneerAddress = address ∧
    (ValidateBech32mAddress address st.config.astriaSequencerAddressHrp = true →
      st'.auctioneerAddress = address) := by
  obtain ⟨-, -, -, safeB, hsafe, hpar, headB, hhead, sref, hok2⟩ := ExecuteBlock_ok_inv hok
  have h := executeBlockBuild_auctioneer hok2 haddr
  exact ⟨h, fun _ => h⟩

/-- Witness for C1 (amended) at a concrete state and request. -/
theorem executeBlock_auctioneer_always_stored_witness :
    ∃ res st', ExecuteBlock stC1 reqW = .ok res st' ∧
      res.number = 1 ∧
      lookupAssoc stC1.config.astriaAuctioneerAddresses ((res.number + 1) % 2 ^ 32) =
        some "bad" ∧
      st'.auctioneerAddress = "bad" := by
  have hb : (ExecuteBlock stC1 reqW).isOk = true := by rfl
  cases h : ExecuteBlock stC1 reqW with
  | ok res st' =>
    have hn : (ExecResult.ok res st').resBlock.map (fun b => b.number) = some 1 := by
      rw [← h]; rfl
    simp only [ExecResult.resBlock, Option.map_some', Option.some.injEq] at hn
    have haddr : lookupAssoc stC1.config.astriaAuctioneerAddresses
        ((res.number + 1) % 2 ^ 32) = some "bad" := by
      rw [hn]; rfl
    exact ⟨res, st', rfl, hn, haddr,
      (executeBlock_auctioneer_always_stored h haddr).1⟩
  | err c s => rw [h] at hb; exact absurd hb (by simp [ExecResult.isOk])
  | fatal => rw [h] at hb; exact absurd hb (by simp [ExecResult.isOk])

/-- The result block of the build tail depends only on the chain, the
fee-recipient cell, the configuration and the arguments. -/
theorem executeBlockBuild_resBlock_congr {st1 st2 : ServerState}
    {req : ExecuteBlockRequest} {ph : List Nat} {height ts : Nat}
    {sref : Option (List Nat)}
    (hc : st1.chain = st2.chain) (hf : st1.nextFeeRecipient = st2.nextFeeRecipient)
    (hcfg : st1.config = st2.config) :
    (executeBlockBuild st1 req ph height ts sref).resBlock =
      (executeBlockBuild st2 req ph height ts sref).resBlock := by
  unfold executeBlockBuild
  dsimp only
  rw [hc, hf, hcfg]
  split <;> simp [ExecResult.resBlock]

/-- C5: determinism of `ExecuteBlock`. The procedure is a pure function
of the chain state, the handshake flags, the fee-recipient cell, the
immutable configuration and the request: two states agreeing on those
(but possibly differing in the TxPool residue or the auctioneer cell)
produce the same result block, so re-running a fixed request on a fixed
chain state yields a byte-identical block; and the unbundling of the
request's transactions depends only on the items, the height, the
previous block hash and the immutable bridge registry. -/
theorem executeBlock_deterministic :
    (∀ (st1 st2 : ServerState) (req : ExecuteBlockRequest),
      st1.chain = st2.chain → st1.nextFeeRecipient = st2.nextFeeRecipient →
      st1.genesisInfoCalled = st2.genesisInfoCalled →
      st1.commitmentStateCalled = st2.commitmentStateCalled →
      st1.config = st2.config →
      (ExecuteBlock st1 req).resBlock = (ExecuteBlock st2 req).resBlock) ∧
    (∀ (cfg1 cfg2 : ChainConfig) (items : List RollupData) (height : Nat)
      (ph : List Nat),
      cfg1.bridgeAddresses = cfg2.bridgeAddresses →
      cfg1.bridgeAllowedAssets = cfg2.bridgeAllowedAssets →
      unbundleRollupDataTransactions cfg1 items height ph =
        unbundleRollupDataTransactions cfg2 items height ph) := by
  constructor
  · intro st1 st2 req hc hf hg hcm hcfg
    unfold ExecuteBlock
    dsimp only
    rw [hc, hg, hcm, hcfg]
    split
    · simp [ExecResult.resBlock]
    split
    · simp [ExecResult.resBlock]
    split
    · rfl
    split
    · simp [ExecResult.resBlock]
    split
    · rfl
    split
    · split
      · simp [ExecResult.resBlock]
      · exact executeBlockBuild_resBlock_congr hc hf hcfg
    · exact executeBlockBuild_resBlock_congr hc hf hcfg
  · intro cfg1 cfg2 items height ph h1 h2
    unfold unbundleRollupDataTransactions
    simp only [h1, h2]

/-- A state agreeing with `stW` except for a TxPool residue and a
different auctioneer cell. -/
def stD1 : ServerState := { stW with pool := [Tx.seqTx [9]], auctioneerAddress := "other" }

/-- A configuration agreeing with `cfgW` on the bridge registry only. -/
def cfgW2 : ChainConfig :=
  { cfgW with astriaRollupName := "other", astriaFeeCollectors := [(3, 7)] }

/-- Witness for C5 at two concrete states differing only in the TxPool
residue and the auctioneer cell, and two configurations sharing the
bridge registry. -/
theorem executeBlock_deterministic_witness :
    (ExecuteBlock stD1 reqW).resBlock = (ExecuteBlock stW reqW).resBlock ∧
    unbundleRollupDataTransactions cfgW
        [RollupData.deposit "bridge" "nria" 10 hashZ "dest" "src" 0] 1 hashA =
      unbundleRollupDataTransactions cfgW2
        [RollupData.deposit "bridge" "nria" 10 hashZ "dest" "src" 0] 1 hashA :=
  ⟨executeBlock_deterministic.1 stD1 stW reqW rfl rfl rfl rfl rfl,
    executeBlock_deterministic.2 cfgW cfgW2
      [RollupData.deposit "bridge" "nria" 10 hashZ "dest" "src" 0] 1 hashA rfl rfl⟩

/-- A request carrying a sequencer block hash under a non-Cancun chain. -/
def reqC6 : ExecuteBlockRequest :=
  { reqW with sequencerBlockHash := some (List.replicate 32 3) }

/-- C6 counterexample: at a concrete state whose Cancun predicate does
not hold at the next height, an otherwise valid request that carries a
`sequencer_block_hash` is not rejected — `ExecuteBlock` succeeds,
contradicting the claim that such a request fails with
`InvalidArgument` during static validation. -/
theorem executeBlock_cancun_static_cex :
    stW.config.isCancun ((blkG.number + 1) % 2 ^ 64)
      (u64OfI64 reqC6.timestampSeconds) = false ∧
    reqC6.sequencerBlockHash = some (List.replicate 32 3) ∧
    (ExecuteBlock stW reqC6).isOk = true :=
  ⟨rfl, rfl, by rfl⟩

/-- C6 amended: static validation — performed before the handshake and
parent checks, whatever the handshake state — rejects with
`InvalidArgument` the requests whose `prev_block_hash` is not 32 bytes
or whose timestamp is not positive. Separately, after the handshake and
parent checks, a missing `sequencer_block_hash` while the Cancun
predicate holds at the next height yields `InvalidArgument`; a present
`sequencer_block_hash` while the Cancun predicate does not hold is not
rejected. -/
theorem executeBlock_static_and_cancun_validation :
    (∀ (st : ServerState) (req : ExecuteBlockRequest),
      ¬(req.prevBlockHash.length = 32 ∧ 0 < req.timestampSeconds) →
      ExecuteBlock st req = .err .invalidArgument st) ∧
    (∀ (st : ServerState) (req : ExecuteBlockRequest) (safeB headB : Block),
      validateStaticExecuteBlockRequest req = true →
      st.genesisInfoCalled = true → st.commitmentStateCalled = true →
      GetBlockByHash st.chain.blocks st.chain.safeHash = some safeB →
      bytesToHash req.prevBlockHash = safeB.hash →
      GetBlockByHash st.chain.blocks st.chain.headHash = some headB →
      st.config.isCancun ((headB.number + 1) % 2 ^ 64)
        (u64OfI64 req.timestampSeconds) = true →
      req.sequencerBlockHash = none →
      ExecuteBlock st req = .err .invalidArgument st) := by
  constructor
  · intro st req hbad
    have hv : validateStaticExecuteBlockRequest req = false := by
      unfold validateStaticExecuteBlockRequest
      rcases not_and_or.mp hbad with h | h <;> simp [h]
    simp [ExecuteBlock, hv]
  · intro st req safeB headB hstat hg hc hsafe hpar hhead hcancun hsbh
    simp only [show (2 : Nat) ^ 64 = 18446744073709551616 by norm_num] at hcancun
    simp [ExecuteBlock, hstat, hg, hc, hsafe, hpar, hhead, hcancun, hsbh]

/-- A statically invalid request: 3-byte previous hash. -/
def reqBad : ExecuteBlockRequest :=
  { prevBlockHash := [1, 2, 3], timestampSeconds := 5, transactions := [],
    sequencerBlockHash := none }

/-- A configuration whose Cancun predicate always holds. -/
def cfgCan : ChainConfig := { cfgW with isCancun := fun _ _ => true }

/-- The handshaken state over `chainW` with Cancun active. -/
def stCan : ServerState := { stW with config := cfgCan }

/-- Witness for C6 (amended): a malformed request is rejected before the
handshake state matters, and a Cancun-height request without a
sequencer block hash is rejected after the parent check. -/
theorem executeBlock_static_and_cancun_validation_witness :
    ExecuteBlock stW reqBad = .err .invalidArgument stW ∧
    ExecuteBlock stCan reqW = .err .invalidArgument stCan :=
  ⟨executeBlock_static_and_cancun_validation.1 stW reqBad (by decide),
    executeBlock_static_and_cancun_validation.2 stCan reqW blkG blkG
      (by decide) rfl rfl rfl (by decide) rfl rfl rfl⟩

/-- The commitment state matching the stored genesis block exactly. -/
def csW : CommitmentState :=
  { soft := ethHeaderToExecutionBlock blkG, firm := ethHeaderToExecutionBlock blkG,
    baseCelestiaHeight := 2 }

/-- A state whose handshake has not happened. -/
def stNoHs : ServerState :=
  { stW with genesisInfoCalled := false, commitmentStateCalled := false }

/-- C8 counterexample: before the handshake, a statically invalid
`ExecuteBlock` request is rejected with `InvalidArgument`, not
`PermissionDenied` — static validation precedes the handshake check —
contradicting the claim that while either handshake flag is false both
procedures return `PermissionDenied`. -/
theorem handshake_gate_cex :
    stNoHs.genesisInfoCalled = false ∧
    ExecuteBlock stNoHs reqBad = .err .invalidArgument stNoHs :=
  ⟨rfl, by rfl⟩

/-- C8 amended: while either handshake flag is false, no `ExecuteBlock`
or `UpdateCommitmentState` call is accepted and neither modifies any
state: statically valid requests fail with `PermissionDenied`, and
statically invalid ones fail earlier with `InvalidArgument`. -/
theorem handshake_gate (st : ServerState)
    (hflag : (st.genesisInfoCalled && st.commitmentStateCalled) = false) :
    (∀ req : ExecuteBlockRequest,
      (validateStaticExecuteBlockRequest req = true →
        ExecuteBlock st req = .err .permissionDenied st) ∧
      (validateStaticExecuteBlockRequest req = false →
        ExecuteBlock st req = .err .invalidArgument st)) ∧
    (∀ cs : CommitmentState,
      (validateStaticCommitmentState cs = true →
        UpdateCommitmentState st cs = .err .permissionDenied st) ∧
      (validateStaticCommitmentState cs = false →
        UpdateCommitmentState st cs = .err .invalidArgument st)) := by
  constructor
  · intro req
    constructor
    · intro hv; simp [ExecuteBlock, hv, hflag]
    · intro hv; simp [ExecuteBlock, hv]
  · intro cs
    constructor
    · intro hv; simp [UpdateCommitmentState, hv, hflag]
    · intro hv; simp [UpdateCommitmentState, hv]

/-- Witness for C8 (amended): concrete pre-handshake calls are refused
with the state unchanged. -/
theorem handshake_gate_witness :
    ExecuteBlock stNoHs reqW = .err .permissionDenied stNoHs ∧
    UpdateCommitmentState stNoHs csW = .err .permissionDenied stNoHs :=
  ⟨((handshake_gate stNoHs rfl).1 reqW).1 (by decide),
    ((handshake_gate stNoHs rfl).2 csW).1 (by decide)⟩

/-- Success inversion for `UpdateCommitmentState`: the echoed state, the
passed checks, and the post-call pointers. -/
theorem UpdateCommitmentState_ok_inv {st : ServerState} {cs cs2 : CommitmentState}
    {st' : ServerState} (hok : UpdateCommitmentState st cs = .ok cs2 st') :
    cs2 = cs ∧
    validateStaticCommitmentState cs = true ∧
    st.genesisInfoCalled = true ∧ st.commitmentStateCalled = true ∧
    st.chain.baseCelestiaHeight ≤ cs.baseCelestiaHeight ∧
    ∃ softBlock firmBlock,
      GetBlockByHash st.chain.blocks (bytesToHash cs.soft.hash) = some softBlock ∧
      GetBlockByHash st.chain.blocks (bytesToHash cs.firm.hash) = some firmBlock ∧
      st'.chain.blocks = st.chain.blocks ∧
      st'.chain.safeHash = bytesToHash cs.soft.hash ∧
      st'.chain.finalHash = bytesToHash cs.firm.hash ∧
      (st.chain.finalHash ≠ bytesToHash cs.firm.hash →
        st'.chain.baseCelestiaHeight = cs.baseCelestiaHeight) ∧
      (st.chain.finalHash = bytesToHash cs.firm.hash →
        st'.chain.baseCelestiaHeight = st.chain.baseCelestiaHeight) := by
  unfold UpdateCommitmentState at hok
  simp only at hok
  split at hok
  · exact absurd hok (by simp)
  next hstat =>
  split at hok
  · exact absurd hok (by simp)
  next hflag =>
  split at hok
  · exact absurd hok (by simp)
  next hmono =>
  split at hok
  · exact absurd hok (by simp)
  next softBlock hsoft =>
  split at hok
  · exact absurd hok (by simp)
  next firmBlock hfirm =>
  split at hok
  · exact absurd hok (by simp)
  next chain1 hchain1 =>
  split at hok
  · split at hok
    · exact absurd hok (by simp)
    split at hok
    · exact absurd hok (by simp)
    · exact absurd hok (by simp)
  next hfirmok =>
  cases hok
  have hstat' : validateStaticCommitmentState cs = true := by simpa using hstat
  have hflag' : (st.genesisInfoCalled && st.commitmentStateCalled) = true := by
    simpa using hflag
  rw [Bool.and_eq_true] at hflag'
  have hmono' : st.chain.baseCelestiaHeight ≤ cs.baseCelestiaHeight := Nat.not_lt.mp hmono
  have hch1 : chain1.blocks = st.chain.blocks ∧ chain1.finalHash = st.chain.finalHash ∧
      chain1.baseCelestiaHeight = st.chain.baseCelestiaHeight := by
    split at hchain1
    · obtain ⟨-, h2, -, h4, h5⟩ := SetCanonical_some hchain1
      exact ⟨h2, h4, h5⟩
    · cases hchain1
      exact ⟨rfl, rfl, rfl⟩
  obtain ⟨hb1, hf1, hc1⟩ := hch1
  have hsofthash : softBlock.hash = bytesToHash cs.soft.hash := GetBlockByHash_hash_eq hsoft
  have hfirmhash : firmBlock.hash = bytesToHash cs.firm.hash := GetBlockByHash_hash_eq hfirm
  obtain ⟨c3, hg3, h3blocks, h3safe, h3final, h3base⟩ :
      ∃ c3, (if chain1.safeHash ≠ bytesToHash cs.soft.hash
          then SetSafe chain1 softBlock else chain1) = c3 ∧
        c3.blocks = st.chain.blocks ∧
        c3.safeHash = bytesToHash cs.soft.hash ∧
        c3.finalHash = st.chain.finalHash ∧
        c3.baseCelestiaHeight = st.chain.baseCelestiaHeight := by
    refine ⟨_, rfl, ?_, ?_, ?_, ?_⟩
    · split <;> simpa [SetSafe] using hb1
    · split
      · simp [SetSafe, hsofthash]
      · next hcond => simpa using not_ne_iff.mp hcond
    · split <;> simpa [SetSafe] using hf1
    · split <;> simpa [SetSafe] using hc1
  rw [hg3]
  refine ⟨rfl, hstat', hflag'.1, hflag'.2, hmono', softBlock, firmBlock, hsoft, hfirm,
    ?_, ?_, ?_, ?_, ?_⟩
  · dsimp only
    split
    · simp [SetCelestiaFinalized, h3blocks]
    · exact h3blocks
  · dsimp only
    split
    · simp [SetCelestiaFinalized, h3safe]
    · exact h3safe
  · dsimp only
    split
    · simp [SetCelestiaFinalized, hfirmhash]
    · next hcond => exact not_ne_iff.mp hcond
  · intro hne
    dsimp only
    split
    · simp [SetCelestiaFinalized]
    · next hcond =>
      exact absurd (h3final.symm.trans (not_ne_iff.mp hcond)) hne
  · intro heq
    dsimp only
    split
    · next hcond =>
      exact absurd (h3final.trans heq) hcond
    · exact h3base

/-- C2: a statically valid, handshaken `UpdateCommitmentState` call
whose soft and firm blocks both exist in the store and pass the
monotonicity check, but where — after re-canonicalising the chain to the
requested soft block — the canonical hash at the firm block's height
differs from the requested firm hash, returns `InvalidArgument` with the
canonical head restored to the pre-call head; if the restoring
`SetCanonical` itself fails (or the pre-call head block cannot be looked
up), the process aborts. -/
theorem update_firm_mismatch_rolls_back {st : ServerState} {cs : CommitmentState}
    {softBlock firmBlock : Block} {chain1 : ChainStore}
    (hstat : validateStaticCommitmentState cs = true)
    (hg : st.genesisInfoCalled = true) (hc : st.commitmentStateCalled = true)
    (hmono : st.chain.baseCelestiaHeight ≤ cs.baseCelestiaHeight)
    (hsoft : GetBlockByHash st.chain.blocks (bytesToHash cs.soft.hash) = some softBlock)
    (hfirm : GetBlockByHash st.chain.blocks (bytesToHash cs.firm.hash) = some firmBlock)
    (hchain1 : (if st.chain.headHash ≠ bytesToHash cs.soft.hash
        then SetCanonical st.chain softBlock else some st.chain) = some chain1)
    (hmis : GetCanonicalHash chain1 firmBlock.number ≠ bytesToHash cs.firm.hash) :
    (∃ rollbackBlock chain2,
      GetBlockByHash chain1.blocks st.chain.headHash = some rollbackBlock ∧
      SetCanonical chain1 rollbackBlock = some chain2 ∧
      chain2.headHash = st.chain.headHash ∧
      UpdateCommitmentState st cs = .err .invalidArgument { st with chain := chain2 }) ∨
    UpdateCommitmentState st cs = .fatal := by
  have hmono' : ¬(cs.baseCelestiaHeight < st.chain.baseCelestiaHeight) :=
    Nat.not_lt.mpr hmono
  cases hrb : GetBlockByHash chain1.blocks st.chain.headHash with
  | none =>
    right
    simp [UpdateCommitmentState, hstat, hg, hc, hmono', hsoft, hfirm, hchain1, hmis, hrb]
  | some rollbackBlock =>
    cases hsc : SetCanonical chain1 rollbackBlock with
    | none =>
      right
      simp [UpdateCommitmentState, hstat, hg, hc, hmono', hsoft, hfirm, hchain1, hmis,
        hrb, hsc]
    | some chain2 =>
      left
      refine ⟨rollbackBlock, chain2, rfl, hsc, ?_, ?_⟩
      · rw [(SetCanonical_some hsc).1, GetBlockByHash_hash_eq hrb]
      · simp [UpdateCommitmentState, hstat, hg, hc, hmono', hsoft, hfirm, hchain1, hmis,
          hrb, hsc]

/-- Hash of the canonical height-1 block of the fork scenario. -/
def hashB : List Nat := List.replicate 32 4

/-- Hash of the competing height-1 block of the fork scenario. -/
def hashC : List Nat := List.replicate 32 5

/-- The canonical child of the genesis block. -/
def blkA : Block := { number := 1, hash := hashB, parentHash := hashA, time := 2, txs := [] }

/-- A competing child of the genesis block (a fork). -/
def blkB : Block := { number := 1, hash := hashC, parentHash := hashA, time := 3, txs := [] }

/-- A store holding the genesis block and both height-1 children, with
`blkA` canonical and final pointer at genesis. -/
def chainF : ChainStore :=
  { blocks := [blkG, blkA, blkB], canonical := [(1, hashB), (0, hashA)],
    headHash := hashB, safeHash := hashB, finalHash := hashA, baseCelestiaHeight := 2 }

/-- The handshaken state over the fork store. -/
def stF : ServerState := { stW with chain := chainF }

/-- A commitment state naming the fork block as soft and the abandoned
canonical block as firm — firm is not an ancestor of soft. -/
def csF : CommitmentState :=
  { soft := ethHeaderToExecutionBlock blkB, firm := ethHeaderToExecutionBlock blkA,
    baseCelestiaHeight := 2 }

/-- The fork store after re-canonicalising to `blkB`. -/
def chainF1 : ChainStore :=
  { chainF with headHash := hashC, canonical := [(1, hashC), (0, hashA)] }

/-- Witness for C2: a concrete fork where the requested firm block is
not on the chain of the requested soft block; the call rolls back to
the pre-call head and rejects with `InvalidArgument`. -/
theorem update_firm_mismatch_rolls_back_witness :
    (∃ rollbackBlock chain2,
      GetBlockByHash chainF1.blocks stF.chain.headHash = some rollbackBlock ∧
      SetCanonical chainF1 rollbackBlock = some chain2 ∧
      chain2.headHash = stF.chain.headHash ∧
      UpdateCommitmentState stF csF =
        .err .invalidArgument { stF with chain := chain2 }) ∨
    UpdateCommitmentState stF csF = .fatal :=
  @update_firm_mismatch_rolls_back stF csF blkB blkA chainF1
    (by decide) rfl rfl (by decide) (by decide) (by decide) (by decide) (by decide)

/-- C3 amended: if `UpdateCommitmentState` accepts `cs`, and the `soft`
and `firm` wire blocks inside `cs` agree exactly with the wire form of
the stored blocks their hashes name, and `cs.base_celestia_height` is
actually persisted — the firm hash differs from the pre-call final
pointer, or the requested base height equals the stored one — then an
immediately following `GetCommitmentState` returns `cs` itself. Beyond
the two hashes and the base height the request's block fields are
echoed back unvalidated, so the round trip needs these hypotheses (see
the counterexample). -/
theorem update_then_get_roundtrip {st : ServerState} {cs cs2 : CommitmentState}
    {st' : ServerState} {softB firmB : Block}
    (hok : UpdateCommitmentState st cs = .ok cs2 st')
    (hs : GetBlockByHash st.chain.blocks (bytesToHash cs.soft.hash) = some softB)
    (hf : GetBlockByHash st.chain.blocks (bytesToHash cs.firm.hash) = some firmB)
    (hsw : ethHeaderToExecutionBlock softB = cs.soft)
    (hfw : ethHeaderToExecutionBlock firmB = cs.firm)
    (hbase : st.chain.finalHash ≠ bytesToHash cs.firm.hash ∨
      cs.baseCelestiaHeight = st.chain.baseCelestiaHeight) :
    cs2 = cs ∧
    GetCommitmentState st' = .ok (cs, { st' with commitmentStateCalled := true }) := by
  obtain ⟨hcs2, -, -, -, -, softBlock, firmBlock, hs2, hf2, hblocks, hsafe, hfinal,
    hb1, hb2⟩ := UpdateCommitmentState_ok_inv hok
  obtain rfl : softB = softBlock := by rw [hs] at hs2; exact Option.some.inj hs2
  obtain rfl : firmB = firmBlock := by rw [hf] at hf2; exact Option.some.inj hf2
  refine ⟨hcs2, ?_⟩
  have hbase' : st'.chain.baseCelestiaHeight = cs.baseCelestiaHeight := by
    rcases hbase with h | h
    · exact hb1 h
    · by_cases hfh : st.chain.finalHash = bytesToHash cs.firm.hash
      · rw [hb2 hfh, h]
      · exact hb1 hfh
  unfold GetCommitmentState
  rw [hblocks, hsafe, hfinal, hs, hf]
  simp [hsw, hfw, hbase']

/-- A request commitment state whose hashes resolve to stored blocks
but whose block numbers are wrong. -/
def csBad : CommitmentState :=
  { soft := { number := 7, hash := hashA, parentBlockHash := hashZ, timestampSeconds := 1 },
    firm := { number := 7, hash := hashA, parentBlockHash := hashZ, timestampSeconds := 1 },
    baseCelestiaHeight := 2 }

/-- State `stW` with the engine marked synced, the state a no-op accepted
update leaves behind. -/
def stWsynced : ServerState := { stW with synced := true }

/-- C3 counterexample: `UpdateCommitmentState` validates only the two
hashes and the base height of the request and echoes the rest
unchecked: a request quoting block number 7 for the stored height-0
block is accepted and echoed, yet the immediately following
`GetCommitmentState` returns the true stored block (number 0), so the
round trip differs from the accepted `cs`. -/
theorem update_then_get_roundtrip_cex :
    UpdateCommitmentState stW csBad = .ok csBad stWsynced ∧
    GetCommitmentState stWsynced =
      .ok (csW, { stWsynced with commitmentStateCalled := true }) ∧
    csW ≠ csBad :=
  ⟨by rfl, by rfl, by decide⟩

/-- Witness for C3 (amended) at a concrete accepted update whose request
matches the stored blocks. -/
theorem update_then_get_roundtrip_witness :
    ∃ cs2 st', UpdateCommitmentState stW csW = .ok cs2 st' ∧ cs2 = csW ∧
      GetCommitmentState st' = .ok (csW, { st' with commitmentStateCalled := true }) := by
  have hb : (UpdateCommitmentState stW csW).isOk = true := by rfl
  cases h : UpdateCommitmentState stW csW with
  | ok cs2 st' =>
    obtain ⟨h1, h2⟩ := update_then_get_roundtrip h rfl rfl rfl rfl (Or.inr rfl)
    exact ⟨cs2, st', rfl, h1, h2⟩
  | err c s => rw [h] at hb; exact absurd hb (by simp [UpdResult.isOk])
  | fatal => rw [h] at hb; exact absurd hb (by simp [UpdResult.isOk])

/-- C9: the base-Celestia-height monotonicity guard: a statically valid,
handshaken request whose base height is strictly below the stored one
fails with `InvalidArgument` with the state unchanged (before any state
change), and across all successful `UpdateCommitmentState` calls the
stored base height is monotone non-decreasing. -/
theorem update_celestia_monotone :
    (∀ (st : ServerState) (cs : CommitmentState),
      validateStaticCommitmentState cs = true →
      st.genesisInfoCalled = true → st.commitmentStateCalled = true →
      cs.baseCelestiaHeight < st.chain.baseCelestiaHeight →
      UpdateCommitmentState st cs = .err .invalidArgument st) ∧
    (∀ (st : ServerState) (cs cs2 : CommitmentState) (st' : ServerState),
      UpdateCommitmentState st cs = .ok cs2 st' →
      st.chain.baseCelestiaHeight ≤ st'.chain.baseCelestiaHeight) := by
  constructor
  · intro st cs hstat hg hc hlt
    simp [UpdateCommitmentState, hstat, hg, hc, hlt]
  · intro st cs cs2 st' hok
    obtain ⟨-, -, -, -, hmono, softBlock, firmBlock, -, -, -, -, -, hb1, hb2⟩ :=
      UpdateCommitmentState_ok_inv hok
    by_cases hfh : st.chain.finalHash = bytesToHash cs.firm.hash
    · rw [hb2 hfh]
    · rw [hb1 hfh]; exact hmono

/-- A request commitment state whose base height regresses. -/
def csLow : CommitmentState := { csW with baseCelestiaHeight := 1 }

/-- Witness for C9: a concrete regressing request is rejected, and a
concrete successful update does not decrease the stored base height. -/
theorem update_celestia_monotone_witness :
    UpdateCommitmentState stW csLow = .err .invalidArgument stW ∧
    ∃ cs2 st', UpdateCommitmentState stW csW = .ok cs2 st' ∧
      stW.chain.baseCelestiaHeight ≤ st'.chain.baseCelestiaHeight := by
  constructor
  · exact update_celestia_monotone.1 stW csLow (by decide) rfl rfl (by decide)
  · have hb : (UpdateCommitmentState stW csW).isOk = true := by rfl
    cases h : UpdateCommitmentState stW csW with
    | ok cs2 st' => exact ⟨cs2, st', rfl, update_celestia_monotone.2 stW csW cs2 st' h⟩
    | err c s => rw [h] at hb; exact absurd hb (by simp [UpdResult.isOk])
    | fatal => rw [h] at hb; exact absurd hb (by simp [UpdResult.isOk])

end Flame
